import Mathlib

/-!
Shallow embedding of the booking-ledger core of the poolo-ride-backend
repository: the SQLite route handlers in `src/routes/rides.js` (create ride,
update ride status) and `src/routes/bookings.js` (create booking, cancel
booking), plus the Supabase variant of cancel booking from the serverless
entry point, and the invariants stated in the specification.

Modelling conventions:
* Database rows become Lean structures; the three tables (`rides`,
  `ride_bookings`, `ride_messages`) become lists inside a `DB` state record.
* `uuidv4` identifier generation is modelled by a fresh-id counter `next_id`
  on the state; every insert takes the counter and bumps it.
* SQLite `INTEGER` columns are `Int` (JavaScript numbers can be negative; the
  handlers validate only truthiness, so 0 is rejected but negatives pass).
  The `REAL` price column is modelled as `Int`; none of the verified claims
  depends on fractional prices.
* Each handler is a function `DB → args → DB × Except ErrResp payload`,
  returning the (possibly unchanged) database together with the HTTP
  response: `Except.error ⟨status, message⟩` for an error response and
  `Except.ok row` for the JSON row the handler returns.
* Text columns we do not reason about (addresses, message bodies, user
  names) are either `String` fields kept only for the truthiness validation
  in the create-ride handler, or dropped (message text); a notification row
  keeps exactly the ride/sender/receiver triple the claims mention.
* The `JOIN users` clauses in the handlers only attach display names; the
  schema declares `passenger_id`/`driver_id` as foreign keys into `users`,
  so the joins drop no rows and are not modelled.
-/

namespace Poolo

/-- Ride status column: `CHECK (status IN ('available','active','completed','cancelled'))`. -/
inductive RideStatus where
  | available
  | active
  | completed
  | cancelled
deriving DecidableEq, Repr

/-- Booking status column: `CHECK (booking_status IN ('pending','confirmed','cancelled','completed'))`. -/
inductive BookingStatus where
  | pending
  | confirmed
  | cancelled
  | completed
deriving DecidableEq, Repr

/-- A row of the `rides` table (columns the ledger logic reads or writes). -/
structure Ride where
  id : Nat
  driver_id : Nat
  total_seats : Int
  available_seats : Int
  price_per_seat : Int
  status : RideStatus
deriving DecidableEq, Repr

/-- A row of the `ride_bookings` table. -/
structure Booking where
  id : Nat
  ride_id : Nat
  passenger_id : Nat
  seats_booked : Int
  booking_status : BookingStatus
  total_price : Int
deriving DecidableEq, Repr

/-- A row of the `ride_messages` table (notification records; the text body
is irrelevant to every claim and is not stored). -/
structure Message where
  ride_id : Nat
  sender_id : Nat
  receiver_id : Nat
deriving DecidableEq, Repr

/-- The persistent store: the three tables plus the fresh-id counter that
stands in for `uuidv4`. -/
structure DB where
  rides : List Ride
  bookings : List Booking
  messages : List Message
  next_id : Nat
deriving Repr

/-- An HTTP error response: status code and JSON `message` field. -/
structure ErrResp where
  status : Nat
  message : String
deriving DecidableEq, Repr

/-- `SELECT * FROM rides WHERE id = ?` (first row wins, as in SQLite). -/
def findRide (db : DB) (rid : Nat) : Option Ride :=
  db.rides.find? (fun r => r.id == rid)

/-- `SELECT * FROM ride_bookings WHERE id = ?`. -/
def findBooking (db : DB) (bid : Nat) : Option Booking :=
  db.bookings.find? (fun b => b.id == bid)

/-- The duplicate-booking probe of the create-booking handler:
`SELECT * FROM ride_bookings WHERE ride_id = ? AND passenger_id = ? AND booking_status != 'cancelled'`. -/
def findActiveBooking (db : DB) (rid : Nat) (passenger : Nat) : Option Booking :=
  db.bookings.find? (fun b =>
    b.ride_id == rid && b.passenger_id == passenger &&
      b.booking_status != BookingStatus.cancelled)

/-- Request body of `POST /api/rides` (fields the handler validates or
inserts; coordinates and description are optional and never read again). -/
structure RideInput where
  pickup_address : String
  drop_address : String
  pickup_time : String
  total_seats : Int
  available_seats : Option Int
  vehicle_type : String
  price_per_seat : Int
deriving Repr

/-- `POST /api/rides` (src/routes/rides.js, create ride): validates that the
required fields are truthy, then inserts the ride with
`available_seats || total_seats` and the schema-default status `'available'`. -/
def createRide (db : DB) (userId : Nat) (inp : RideInput) : DB × Except ErrResp Ride :=
  if inp.pickup_address == "" || inp.drop_address == "" || inp.pickup_time == "" ||
      inp.total_seats == 0 || inp.vehicle_type == "" || inp.price_per_seat == 0 then
    (db, Except.error ⟨400, "Missing required fields"⟩)
  else
    let avail : Int :=
      match inp.available_seats with
      | some a => if a == 0 then inp.total_seats else a
      | none => inp.total_seats
    let ride : Ride :=
      ⟨db.next_id, userId, inp.total_seats, avail, inp.price_per_seat, RideStatus.available⟩
    ({ db with rides := db.rides ++ [ride], next_id := db.next_id + 1 }, Except.ok ride)

/-- `POST /api/bookings` (src/routes/bookings.js, create booking). The body
check `!ride_id || !seats_booked` rejects a zero (falsy) seat count; the
presence of `ride_id` is modelled by the argument being supplied. Then:
ride lookup, own-ride check, seat check, duplicate check, insert with status
`'confirmed'` and `total_price = price_per_seat * seats_booked`, relative
`UPDATE rides SET available_seats = available_seats - ?`, and a best-effort
notification message to the driver. -/
def createBooking (db : DB) (userId : Nat) (ride_id : Nat) (seats_booked : Int) :
    DB × Except ErrResp Booking :=
  if seats_booked == 0 then
    (db, Except.error ⟨400, "ride_id and seats_booked are required"⟩)
  else
    match findRide db ride_id with
    | none => (db, Except.error ⟨404, "Ride not found"⟩)
    | some ride =>
      if ride.driver_id == userId then
        (db, Except.error ⟨400, "Cannot book your own ride"⟩)
      else if ride.available_seats < seats_booked then
        (db, Except.error ⟨400, "Not enough seats available"⟩)
      else
        match findActiveBooking db ride_id userId with
        | some _ => (db, Except.error ⟨400, "You already have a booking for this ride"⟩)
        | none =>
          let totalPrice := ride.price_per_seat * seats_booked
          let booking : Booking :=
            ⟨db.next_id, ride_id, userId, seats_booked, BookingStatus.confirmed, totalPrice⟩
          let db1 : DB :=
            { db with bookings := db.bookings ++ [booking], next_id := db.next_id + 1 }
          let db2 : DB :=
            { db1 with rides := db1.rides.map (fun r =>
                if r.id == ride_id then
                  { r with available_seats := r.available_seats - seats_booked }
                else r) }
          let db3 : DB :=
            { db2 with messages := db2.messages ++ [⟨ride_id, userId, ride.driver_id⟩] }
          (db3, Except.ok booking)

/-- Sets a booking row to `'cancelled'` when its id matches, as in
`UPDATE ride_bookings SET booking_status = 'cancelled' WHERE id = ?`. -/
def cancelIfId (bid : Nat) (b : Booking) : Booking :=
  if b.id == bid then { b with booking_status := BookingStatus.cancelled } else b

/-- `PATCH /api/bookings/:id/cancel` (src/routes/bookings.js, cancel
booking): booking lookup, passenger authorization, already-cancelled check;
then status update, relative `UPDATE rides SET available_seats =
available_seats + ?`, best-effort driver notification (which re-reads the
ride and silently fails if it is gone), and re-select of the booking row. -/
def cancelBooking (db : DB) (userId : Nat) (bid : Nat) : DB × Except ErrResp Booking :=
  match findBooking db bid with
  | none => (db, Except.error ⟨404, "Booking not found"⟩)
  | some booking =>
    if booking.passenger_id != userId then
      (db, Except.error ⟨403, "Not authorized"⟩)
    else if booking.booking_status == BookingStatus.cancelled then
      (db, Except.error ⟨400, "Booking already cancelled"⟩)
    else
      let db1 : DB := { db with bookings := db.bookings.map (cancelIfId bid) }
      let db2 : DB :=
        { db1 with rides := db1.rides.map (fun r =>
            if r.id == booking.ride_id then
              { r with available_seats := r.available_seats + booking.seats_booked }
            else r) }
      let db3 : DB :=
        match findRide db2 booking.ride_id with
        | some ride => { db2 with messages := db2.messages ++ [⟨booking.ride_id, userId, ride.driver_id⟩] }
        | none => db2
      let updated :=
        (findBooking db3 bid).getD { booking with booking_status := BookingStatus.cancelled }
      (db3, Except.ok updated)

/-- One iteration of the ride-cancellation cascade loop: insert the
notification message for the booking's passenger, then
`UPDATE ride_bookings SET booking_status = 'cancelled' WHERE id = ?`. -/
def cancelNotifyStep (ride : Ride) (acc : DB) (b : Booking) : DB :=
  let acc1 : DB := { acc with messages := acc.messages ++ [⟨ride.id, ride.driver_id, b.passenger_id⟩] }
  { acc1 with bookings := acc1.bookings.map (cancelIfId b.id) }

/-- Row predicate of the cascade query:
`b.ride_id = ? AND b.booking_status = 'confirmed'`. -/
def isConfirmedOn (rid : Nat) (b : Booking) : Bool :=
  b.ride_id == rid && b.booking_status == BookingStatus.confirmed

/-- The `WHERE b.ride_id = ? AND b.booking_status = 'confirmed'` selection
feeding the cascade loop. -/
def confirmedOn (db : DB) (rid : Nat) : List Booking :=
  db.bookings.filter (isConfirmedOn rid)

/-- `PATCH /api/rides/:id/status` (src/routes/rides.js, update ride status):
ride lookup, driver authorization; when the requested status is
`'cancelled'`, loop over the confirmed bookings notifying each passenger and
cancelling each booking; finally `UPDATE rides SET status = ?` and re-select
of the ride row. No check of the ride's current status is performed. -/
def updateRideStatus (db : DB) (userId : Nat) (rid : Nat) (status : RideStatus) :
    DB × Except ErrResp Ride :=
  match findRide db rid with
  | none => (db, Except.error ⟨404, "Ride not found"⟩)
  | some ride =>
    if ride.driver_id != userId then
      (db, Except.error ⟨403, "Not authorized"⟩)
    else
      let db1 : DB :=
        if status == RideStatus.cancelled then
          (confirmedOn db rid).foldl (cancelNotifyStep ride) db
        else db
      let db2 : DB :=
        { db1 with rides := db1.rides.map (fun r =>
            if r.id == rid then { r with status := status } else r) }
      let updated := (findRide db2 rid).getD { ride with status := status }
      (db2, Except.ok updated)

/-- `PATCH /api/bookings/:id/cancel` in the Supabase serverless variant
(`api/index.js`): the fetch embeds the ride row (`select('*, ride:rides(*)')`)
as a snapshot; the seat restore writes the absolute value
`booking.ride.available_seats + booking.seats_booked` read from that
snapshot. If the embedded ride were missing, `booking.ride.available_seats`
would throw after the status update already ran, yielding the catch-all 500
with the booking cancelled but no seats restored. -/
def cancelBookingSupabase (db : DB) (userId : Nat) (bid : Nat) : DB × Except ErrResp Booking :=
  match findBooking db bid with
  | none => (db, Except.error ⟨404, "Booking not found"⟩)
  | some booking =>
    if booking.passenger_id != userId then
      (db, Except.error ⟨403, "Not authorized"⟩)
    else if booking.booking_status == BookingStatus.cancelled then
      (db, Except.error ⟨400, "Booking already cancelled"⟩)
    else
      let db1 : DB := { db with bookings := db.bookings.map (cancelIfId bid) }
      match findRide db booking.ride_id with
      | none => (db1, Except.error ⟨500, "Failed to cancel booking"⟩)
      | some rideSnap =>
        let db2 : DB :=
          { db1 with rides := db1.rides.map (fun r =>
              if r.id == booking.ride_id then
                { r with available_seats := rideSnap.available_seats + booking.seats_booked }
              else r) }
        let db3 : DB :=
          { db2 with messages := db2.messages ++ [⟨booking.ride_id, userId, rideSnap.driver_id⟩] }
        let updated :=
          (findBooking db3 bid).getD { booking with booking_status := BookingStatus.cancelled }
        (db3, Except.ok updated)

/-! ### Specification-side definitions and invariants -/

/-- Modelled from the spec: the ordered create-booking precondition list of
section 4.1 — (1) ride exists else NotFound, (2) requester is not the owner
else InvalidOperation, (3) enough seats else InvalidOperation, (4) no
existing non-cancelled booking else Conflict — with the first violated
precondition supplying the error. Used only to compare the handler's error
against the spec's ordering. -/
def specCreateBookingError (db : DB) (userId : Nat) (ride_id : Nat) (seats_booked : Int) :
    Option ErrResp :=
  match findRide db ride_id with
  | none => some ⟨404, "Ride not found"⟩
  | some ride =>
    if ride.driver_id == userId then some ⟨400, "Cannot book your own ride"⟩
    else if ride.available_seats < seats_booked then some ⟨400, "Not enough seats available"⟩
    else if (findActiveBooking db ride_id userId).isSome then
      some ⟨400, "You already have a booking for this ride"⟩
    else none

/-- Total seats held by confirmed bookings of ride `rid` in the booking table. -/
def seatSum (rid : Nat) (bs : List Booking) : Int :=
  ((bs.filter (isConfirmedOn rid)).map Booking.seats_booked).sum

/-- Sets a booking to `'cancelled'` when its id occurs in `ids`: the
accumulated effect of the cascade loop over the bookings whose ids are `ids`. -/
def cancelIfMem (ids : List Nat) (b : Booking) : Booking :=
  if ids.contains b.id then { b with booking_status := BookingStatus.cancelled } else b

/-- Well-formedness of a database state: fresh-id discipline, row-id
uniqueness, positive seat counts, bookings only in the statuses the handlers
ever write, and the seat accounting `available_seats + (confirmed seats) ≤
total_seats` with `available_seats ≥ 0` that makes the spec's ride invariant
inductive. -/
structure WF (db : DB) : Prop where
  rides_id_lt : ∀ r ∈ db.rides, r.id < db.next_id
  rides_nodup : (db.rides.map Ride.id).Nodup
  bookings_id_lt : ∀ b ∈ db.bookings, b.id < db.next_id
  bookings_nodup : (db.bookings.map Booking.id).Nodup
  bookings_ride_lt : ∀ b ∈ db.bookings, b.ride_id < db.next_id
  seats_pos : ∀ b ∈ db.bookings, 1 ≤ b.seats_booked
  status_ok : ∀ b ∈ db.bookings,
    b.booking_status = BookingStatus.confirmed ∨ b.booking_status = BookingStatus.cancelled
  avail_nonneg : ∀ r ∈ db.rides, 0 ≤ r.available_seats
  avail_bound : ∀ r ∈ db.rides, r.available_seats + seatSum r.id db.bookings ≤ r.total_seats

/-- States reachable from the empty store by the ledger operations, with the
well-formed request inputs of the amended seat invariant: ride creation asks
for a positive seat total and an `available_seats` that is absent or within
`[0, total_seats]`, and booking requests ask for at least one seat.
Requests that fail these disciplines are exactly the ones the handlers
accept without validation. -/
inductive Reachable : DB → Prop where
  | init : Reachable ⟨[], [], [], 0⟩
  | step_create_ride {db : DB} (u : Nat) (inp : RideInput) :
      Reachable db → 1 ≤ inp.total_seats →
      (∀ a ∈ inp.available_seats, 0 ≤ a ∧ a ≤ inp.total_seats) →
      Reachable (createRide db u inp).1
  | step_create_booking {db : DB} (u rid : Nat) (seats : Int) :
      Reachable db → 1 ≤ seats → Reachable (createBooking db u rid seats).1
  | step_cancel_booking {db : DB} (u bid : Nat) :
      Reachable db → Reachable (cancelBooking db u bid).1
  | step_update_status {db : DB} (u rid : Nat) (st : RideStatus) :
      Reachable db → Reachable (updateRideStatus db u rid st).1

/-- Whether a create-booking response is a success. -/
def resultOk : Except ErrResp Booking → Bool
  | Except.ok _ => true
  | Except.error _ => false

/-- The insufficient-seats rejection of the create-booking handler. -/
def seatErr : ErrResp := ⟨400, "Not enough seats available"⟩

/-- Whether a create-booking response is the insufficient-seats rejection. -/
def isSeatErr : Except ErrResp Booking → Bool
  | Except.error e => e == seatErr
  | Except.ok _ => false

/-- Sequential processing of a batch of one-seat booking requests against
ride `rid`, one per passenger in arrival order. The SQLite handler is fully
synchronous (`better-sqlite3`, no `await` between the seat check and the
decrement), so each request runs to completion before the next; simultaneous
requests are therefore exactly an arbitrary arrival order. -/
def processBookings (db : DB) (rid : Nat) : List Nat → DB × List (Except ErrResp Booking)
  | [] => (db, [])
  | p :: ps =>
    let step := createBooking db p rid 1
    let rest := processBookings step.1 rid ps
    (rest.1, step.2 :: rest.2)

/-- Observational agreement of two cancel-booking executions: same response
status (identical error, or success with the same resulting booking status)
and the same final `available_seats` on ride `rid`. -/
def agreeOn (rid : Nat) (x y : DB × Except ErrResp Booking) : Prop :=
  (match x.2, y.2 with
   | Except.error e1, Except.error e2 => e1 = e2
   | Except.ok b1, Except.ok b2 => b1.booking_status = b2.booking_status
   | _, _ => False) ∧
  (findRide x.1 rid).map Ride.available_seats = (findRide y.1 rid).map Ride.available_seats

/-! ### Concrete states used by witnesses and counterexamples -/

/-- A freshly published four-seat ride, driver 7. -/
def rideW : Ride := ⟨1, 7, 4, 4, 100, RideStatus.available⟩

/-- Store holding only `rideW`. -/
def dbW : DB := ⟨[rideW], [], [], 2⟩

/-- The same ride after the driver cancelled it. -/
def rideCancelledW : Ride := ⟨1, 7, 4, 4, 100, RideStatus.cancelled⟩

/-- Store holding only the cancelled ride. -/
def dbCancelledW : DB := ⟨[rideCancelledW], [], [], 2⟩

/-- A confirmed two-seat booking by passenger 9 on `rideW`. -/
def bookingW : Booking := ⟨2, 1, 9, 2, BookingStatus.confirmed, 200⟩

/-- Store holding `rideW` (two seats taken) and `bookingW`. -/
def dbBooked : DB := ⟨[⟨1, 7, 4, 2, 100, RideStatus.available⟩], [bookingW], [], 3⟩

/-- Create-ride request asking for 2 total seats but 5 available seats. -/
def inpOversupply : RideInput := ⟨"Hinjewadi", "Baner", "2030-01-01T10:00", 2, some 5, "car", 100⟩

/-- The booking of `dbBooked` after its passenger cancelled it. -/
def bookingCancelledW : Booking := ⟨2, 1, 9, 2, BookingStatus.cancelled, 200⟩

/-- Store holding the fully-open ride and the cancelled booking. -/
def dbBookedC : DB := ⟨[rideW], [bookingCancelledW], [], 3⟩

/-- A ride with two of four seats left, for the oversell batch witness. -/
def rideK : Ride := ⟨1, 7, 4, 2, 100, RideStatus.available⟩

/-- Store holding only `rideK`. -/
def dbK : DB := ⟨[rideK], [], [], 2⟩

/-- A well-formed create-ride request (4 seats, none pre-taken). -/
def inpGood : RideInput := ⟨"Hinjewadi", "Baner", "2030-01-01T10:00", 4, none, "car", 100⟩

/-- The store reached from empty by publishing `inpGood` as driver 7 and
then booking 2 of its seats as passenger 9. -/
def dbReachedC1 : DB := (createBooking (createRide ⟨[], [], [], 0⟩ 7 inpGood).1 9 0 2).1

/-- Executable check of the spec's ride seat invariant over a whole store:
every ride satisfies 0 ≤ available_seats ≤ total_seats. -/
def seatBoundsOk (db : DB) : Bool :=
  db.rides.all (fun r =>
    decide (0 ≤ r.available_seats) && decide (r.available_seats ≤ r.total_seats))

/-! ### Generic list lemmas -/

/-- `find?` commutes with a `map` that does not disturb the predicate. -/
theorem find?_map_comm {α : Type} (p : α → Bool) (g : α → α)
    (h : ∀ x, p (g x) = p x) :
    ∀ l : List α, (l.map g).find? p = (l.find? p).map g := by
  intro l
  induction l with
  | nil => rfl
  | cons x xs ih =>
    cases hx : p x with
    | true => simp [List.find?_cons, h x, hx]
    | false => simp [List.find?_cons, h x, hx, ih]

/-- In a list with pairwise-distinct keys, elements with equal keys are equal. -/
theorem eq_of_key_nodup {α β : Type} (f : α → β) {l : List α}
    (h : (l.map f).Nodup) {x y : α} (hx : x ∈ l) (hy : y ∈ l) (hk : f x = f y) :
    x = y := by
  induction l with
  | nil => cases hx
  | cons a t ih =>
    rw [List.map_cons, List.nodup_cons] at h
    rcases List.mem_cons.mp hx with rfl | hx' <;>
      rcases List.mem_cons.mp hy with rfl | hy'
    · rfl
    · exact absurd (hk ▸ List.mem_map_of_mem f hy') h.1
    · exact absurd (hk ▸ List.mem_map_of_mem f hx') h.1
    · exact ih h.2 hx' hy'

/-! ### Seat-sum lemmas -/

theorem seatSum_nil (rid : Nat) : seatSum rid [] = 0 := rfl

theorem seatSum_cons (rid : Nat) (b : Booking) (bs : List Booking) :
    seatSum rid (b :: bs) =
      (if isConfirmedOn rid b then b.seats_booked else 0) + seatSum rid bs := by
  cases h : isConfirmedOn rid b <;> simp [seatSum, List.filter_cons, h]

theorem seatSum_append (rid : Nat) (bs cs : List Booking) :
    seatSum rid (bs ++ cs) = seatSum rid bs + seatSum rid cs := by
  simp [seatSum, List.filter_append]

theorem seatSum_nonneg (rid : Nat) {bs : List Booking}
    (h : ∀ b ∈ bs, 0 ≤ b.seats_booked) : 0 ≤ seatSum rid bs := by
  induction bs with
  | nil => simp [seatSum_nil]
  | cons b t ih =>
    rw [seatSum_cons]
    have hb := h b (List.mem_cons_self b t)
    have ht := ih (fun x hx => h x (List.mem_cons_of_mem b hx))
    split <;> omega

/-- A map that changes neither the cascade predicate nor the seat count of
any element leaves the seat sum unchanged. -/
theorem seatSum_map_invariant (rid : Nat) (g : Booking → Booking) {bs : List Booking}
    (h : ∀ b ∈ bs, isConfirmedOn rid (g b) = isConfirmedOn rid b ∧
      (g b).seats_booked = b.seats_booked) :
    seatSum rid (bs.map g) = seatSum rid bs := by
  induction bs with
  | nil => rfl
  | cons b t ih =>
    have hb := h b (List.mem_cons_self b t)
    rw [List.map_cons, seatSum_cons, seatSum_cons, hb.1, hb.2,
      ih (fun x hx => h x (List.mem_cons_of_mem b hx))]

/-- Mapping an update that preserves a key leaves the key column unchanged. -/
theorem map_key_map {α β : Type} (g : α → α) (key : α → β)
    (h : ∀ x, key (g x) = key x) (l : List α) :
    (l.map g).map key = l.map key := by
  rw [List.map_map]
  exact List.map_congr_left (fun a _ => h a)

/-- Cancelling one booking by id removes exactly its contribution from the
seat sum, provided booking ids are unique. -/
theorem seatSum_map_cancelIfId (rid : Nat) {bs : List Booking} {b : Booking}
    (hnd : (bs.map Booking.id).Nodup) (hmem : b ∈ bs)
    (hconf : b.booking_status = BookingStatus.confirmed) :
    seatSum rid (bs.map (cancelIfId b.id)) =
      seatSum rid bs - (if b.ride_id == rid then b.seats_booked else 0) := by
  induction bs with
  | nil => cases hmem
  | cons x t ih =>
    rw [List.map_cons, List.nodup_cons] at hnd
    rcases List.mem_cons.mp hmem with rfl | hmem'
    · have ht : t.map (cancelIfId b.id) = t := by
        have hpt : ∀ y ∈ t, cancelIfId b.id y = y := by
          intro y hy
          have hne : ¬(y.id = b.id) := fun he => hnd.1 (he ▸ List.mem_map_of_mem Booking.id hy)
          simp [cancelIfId, hne]
        simpa using List.map_congr_left hpt
      rw [List.map_cons, ht, seatSum_cons, seatSum_cons]
      have hcx : cancelIfId b.id b = { b with booking_status := BookingStatus.cancelled } := by
        simp [cancelIfId]
      rw [hcx]
      have h1 : isConfirmedOn rid { b with booking_status := BookingStatus.cancelled } = false := by
        simp [isConfirmedOn]
      have h2 : isConfirmedOn rid b = (b.ride_id == rid) := by
        simp [isConfirmedOn, hconf]
      rw [h1, h2]
      by_cases hr : b.ride_id = rid <;> simp [hr]
    · have hne : ¬(x.id = b.id) := fun he => hnd.1 (he ▸ List.mem_map_of_mem Booking.id hmem')
      have hcx : cancelIfId b.id x = x := by simp [cancelIfId, hne]
      rw [List.map_cons, hcx, seatSum_cons, seatSum_cons, ih hnd.2 hmem']
      ring

/-- Projections of one cascade-loop iteration. -/
theorem cancelNotifyStep_proj (ride : Ride) (acc : DB) (b : Booking) :
    (cancelNotifyStep ride acc b).rides = acc.rides ∧
    (cancelNotifyStep ride acc b).next_id = acc.next_id ∧
    (cancelNotifyStep ride acc b).messages =
      acc.messages ++ [⟨ride.id, ride.driver_id, b.passenger_id⟩] ∧
    (cancelNotifyStep ride acc b).bookings = acc.bookings.map (cancelIfId b.id) :=
  ⟨rfl, rfl, rfl, rfl⟩

/-- The cascade loop never touches the `rides` table. -/
theorem foldl_cascade_rides (ride : Ride) (C : List Booking) :
    ∀ db : DB, (C.foldl (cancelNotifyStep ride) db).rides = db.rides := by
  induction C with
  | nil => intro db; rfl
  | cons c t ih => intro db; rw [List.foldl_cons, ih]; rfl

/-- The cascade loop never touches the id counter. -/
theorem foldl_cascade_next_id (ride : Ride) (C : List Booking) :
    ∀ db : DB, (C.foldl (cancelNotifyStep ride) db).next_id = db.next_id := by
  induction C with
  | nil => intro db; rfl
  | cons c t ih => intro db; rw [List.foldl_cons, ih]; rfl

/-- The cascade loop appends exactly one notification per processed booking,
addressed to that booking's passenger and sent by the driver. -/
theorem foldl_cascade_messages (ride : Ride) (C : List Booking) :
    ∀ db : DB, (C.foldl (cancelNotifyStep ride) db).messages =
      db.messages ++ C.map (fun b => ⟨ride.id, ride.driver_id, b.passenger_id⟩) := by
  induction C with
  | nil => intro db; simp
  | cons c t ih =>
    intro db
    rw [List.foldl_cons, ih]
    simp [cancelNotifyStep]

/-- Composing per-id cancellation with membership cancellation. -/
theorem cancelIfMem_cancelIfId (ids : List Nat) (cid : Nat) (b : Booking) :
    cancelIfMem ids (cancelIfId cid b) = cancelIfMem (cid :: ids) b := by
  by_cases h : b.id = cid
  · by_cases hc : ids.contains b.id <;>
      simp [cancelIfId, cancelIfMem, h, hc]
  · simp [cancelIfId, cancelIfMem, h]

/-- The cascade loop's cumulative effect on the booking table: every booking
whose id occurs in the processed list is set to cancelled. -/
theorem foldl_cascade_bookings (ride : Ride) (C : List Booking) :
    ∀ db : DB, (C.foldl (cancelNotifyStep ride) db).bookings =
      db.bookings.map (cancelIfMem (C.map Booking.id)) := by
  induction C with
  | nil =>
    intro db
    have hpt : ∀ b ∈ db.bookings, cancelIfMem [] b = b := by
      intro b _; simp [cancelIfMem]
    simpa using (List.map_congr_left hpt).symm
  | cons c t ih =>
    intro db
    rw [List.foldl_cons, ih]
    show (db.bookings.map (cancelIfId c.id)).map (cancelIfMem (t.map Booking.id)) = _
    rw [List.map_map, List.map_cons]
    exact List.map_congr_left (fun b _ => cancelIfMem_cancelIfId (t.map Booking.id) c.id b)

/-! ### Branch characterizations of the handlers -/

theorem cancelIfId_id (bid : Nat) (b : Booking) : (cancelIfId bid b).id = b.id := by
  unfold cancelIfId; split <;> rfl

/-- Re-selecting a booking after its cancellation update returns the
cancelled row. -/
theorem find?_map_cancelIfId {bs : List Booking} {bid : Nat} {b : Booking}
    (h : bs.find? (fun x => x.id == bid) = some b) :
    (bs.map (cancelIfId bid)).find? (fun x => x.id == bid) =
      some { b with booking_status := BookingStatus.cancelled } := by
  have hpres : ∀ x : Booking, ((cancelIfId bid x).id == bid) = (x.id == bid) := by
    intro x; rw [cancelIfId_id]
  rw [find?_map_comm (fun x => x.id == bid) (cancelIfId bid) hpres, h]
  have hb : (b.id == bid) = true := by
    have hb' := List.find?_some h
    simpa using hb'
  simp [cancelIfId, hb]

theorem createBooking_err_zero {db : DB} {u rid : Nat} {seats : Int}
    (hs : seats = 0) :
    createBooking db u rid seats =
      (db, Except.error ⟨400, "ride_id and seats_booked are required"⟩) := by
  simp [createBooking, hs]

theorem createBooking_err_noride {db : DB} {u rid : Nat} {seats : Int}
    (hs : ¬(seats = 0)) (hr : findRide db rid = none) :
    createBooking db u rid seats = (db, Except.error ⟨404, "Ride not found"⟩) := by
  simp [createBooking, hs, hr]

theorem createBooking_err_own {db : DB} {u rid : Nat} {seats : Int} {r : Ride}
    (hs : ¬(seats = 0)) (hr : findRide db rid = some r) (hd : r.driver_id = u) :
    createBooking db u rid seats = (db, Except.error ⟨400, "Cannot book your own ride"⟩) := by
  simp [createBooking, hs, hr, hd]

theorem createBooking_err_seats {db : DB} {u rid : Nat} {seats : Int} {r : Ride}
    (hs : ¬(seats = 0)) (hr : findRide db rid = some r) (hd : ¬(r.driver_id = u))
    (hlt : r.available_seats < seats) :
    createBooking db u rid seats = (db, Except.error ⟨400, "Not enough seats available"⟩) := by
  simp [createBooking, hs, hr, hd, hlt]

theorem createBooking_err_dup {db : DB} {u rid : Nat} {seats : Int} {r : Ride} {b0 : Booking}
    (hs : ¬(seats = 0)) (hr : findRide db rid = some r) (hd : ¬(r.driver_id = u))
    (hlt : ¬(r.available_seats < seats)) (hdup : findActiveBooking db rid u = some b0) :
    createBooking db u rid seats =
      (db, Except.error ⟨400, "You already have a booking for this ride"⟩) := by
  simp [createBooking, hs, hr, hd, hlt, hdup]

theorem createBooking_ok {db : DB} {u rid : Nat} {seats : Int} {r : Ride}
    (hs : ¬(seats = 0)) (hr : findRide db rid = some r) (hd : ¬(r.driver_id = u))
    (hlt : ¬(r.available_seats < seats)) (hdup : findActiveBooking db rid u = none) :
    createBooking db u rid seats =
      ({ rides := db.rides.map (fun x =>
            if x.id == rid then { x with available_seats := x.available_seats - seats } else x),
         bookings := db.bookings ++
           [⟨db.next_id, rid, u, seats, BookingStatus.confirmed, r.price_per_seat * seats⟩],
         messages := db.messages ++ [⟨rid, u, r.driver_id⟩],
         next_id := db.next_id + 1 },
       Except.ok ⟨db.next_id, rid, u, seats, BookingStatus.confirmed, r.price_per_seat * seats⟩) := by
  simp [createBooking, hs, hr, hd, hlt, hdup]

theorem cancelBooking_err_notfound {db : DB} {u bid : Nat}
    (h : findBooking db bid = none) :
    cancelBooking db u bid = (db, Except.error ⟨404, "Booking not found"⟩) := by
  simp [cancelBooking, h]

theorem cancelBooking_err_forbidden {db : DB} {u bid : Nat} {b : Booking}
    (h : findBooking db bid = some b) (hp : ¬(b.passenger_id = u)) :
    cancelBooking db u bid = (db, Except.error ⟨403, "Not authorized"⟩) := by
  simp [cancelBooking, h, hp]

theorem cancelBooking_err_already {db : DB} {u bid : Nat} {b : Booking}
    (h : findBooking db bid = some b) (hp : b.passenger_id = u)
    (hc : b.booking_status = BookingStatus.cancelled) :
    cancelBooking db u bid = (db, Except.error ⟨400, "Booking already cancelled"⟩) := by
  simp [cancelBooking, h, hp, hc]

/-- Seat-restoring ride update of the booking-cancellation handler. -/
theorem restore_pres_id (rid : Nat) (s : Int) : ∀ x : Ride,
    ((if x.id == rid then { x with available_seats := x.available_seats + s } else x : Ride).id
      == rid) = (x.id == rid) := by
  intro x; split <;> rfl

theorem cancelBooking_ok_ride {db : DB} {u bid : Nat} {b : Booking} {r : Ride}
    (h : findBooking db bid = some b) (hp : b.passenger_id = u)
    (hc : ¬(b.booking_status = BookingStatus.cancelled))
    (hr : findRide db b.ride_id = some r) :
    cancelBooking db u bid =
      ({ rides := db.rides.map (fun x =>
            if x.id == b.ride_id then
              { x with available_seats := x.available_seats + b.seats_booked } else x),
         bookings := db.bookings.map (cancelIfId bid),
         messages := db.messages ++ [⟨b.ride_id, u, r.driver_id⟩],
         next_id := db.next_id },
       Except.ok { b with booking_status := BookingStatus.cancelled }) := by
  have hrid : (r.id == b.ride_id) = true := by
    have hx := List.find?_some hr
    simpa using hx
  have hr2 : (db.rides.map (fun x =>
      if x.id == b.ride_id then { x with available_seats := x.available_seats + b.seats_booked }
      else x)).find? (fun x => x.id == b.ride_id) =
        some { r with available_seats := r.available_seats + b.seats_booked } := by
    rw [find?_map_comm _ _ (restore_pres_id b.ride_id b.seats_booked)]
    unfold findRide at hr
    rw [hr, Option.map_some']
    simp [hrid]
  have hb' : db.bookings.find? (fun x => x.id == bid) = some b := h
  have hb3 := find?_map_cancelIfId hb'
  have hp' : (b.passenger_id != u) = false := by simp [hp]
  have hc' : (b.booking_status == BookingStatus.cancelled) = false := by
    simpa using hc
  simp only [cancelBooking, findRide, findBooking, hb', hp', hc', Bool.false_eq_true,
    if_false, hr2, hb3, Option.getD_some]

theorem cancelBooking_ok_noride {db : DB} {u bid : Nat} {b : Booking}
    (h : findBooking db bid = some b) (hp : b.passenger_id = u)
    (hc : ¬(b.booking_status = BookingStatus.cancelled))
    (hr : findRide db b.ride_id = none) :
    cancelBooking db u bid =
      ({ rides := db.rides.map (fun x =>
            if x.id == b.ride_id then
              { x with available_seats := x.available_seats + b.seats_booked } else x),
         bookings := db.bookings.map (cancelIfId bid),
         messages := db.messages,
         next_id := db.next_id },
       Except.ok { b with booking_status := BookingStatus.cancelled }) := by
  have hr2 : (db.rides.map (fun x =>
      if x.id == b.ride_id then { x with available_seats := x.available_seats + b.seats_booked }
      else x)).find? (fun x => x.id == b.ride_id) = none := by
    rw [find?_map_comm _ _ (restore_pres_id b.ride_id b.seats_booked)]
    unfold findRide at hr
    rw [hr, Option.map_none']
  have hb' : db.bookings.find? (fun x => x.id == bid) = some b := h
  have hb3 := find?_map_cancelIfId hb'
  have hp' : (b.passenger_id != u) = false := by simp [hp]
  have hc' : (b.booking_status == BookingStatus.cancelled) = false := by
    simpa using hc
  simp only [cancelBooking, findRide, findBooking, hb', hp', hc', Bool.false_eq_true,
    if_false, hr2, hb3, Option.getD_some]

theorem updateRideStatus_err_notfound {db : DB} {u rid : Nat} {st : RideStatus}
    (h : findRide db rid = none) :
    updateRideStatus db u rid st = (db, Except.error ⟨404, "Ride not found"⟩) := by
  simp [updateRideStatus, h]

theorem updateRideStatus_err_forbidden {db : DB} {u rid : Nat} {st : RideStatus} {r : Ride}
    (h : findRide db rid = some r) (hd : ¬(r.driver_id = u)) :
    updateRideStatus db u rid st = (db, Except.error ⟨403, "Not authorized"⟩) := by
  simp [updateRideStatus, h, hd]

/-- Status-setting ride update of the ride-status handler. -/
theorem setstat_pres_id (rid : Nat) (st : RideStatus) : ∀ x : Ride,
    ((if x.id == rid then { x with status := st } else x : Ride).id == rid) = (x.id == rid) := by
  intro x; split <;> rfl

theorem updateRideStatus_ok_other {db : DB} {u rid : Nat} {st : RideStatus} {r : Ride}
    (h : findRide db rid = some r) (hd : r.driver_id = u)
    (hst : ¬(st = RideStatus.cancelled)) :
    updateRideStatus db u rid st =
      ({ rides := db.rides.map (fun x => if x.id == rid then { x with status := st } else x),
         bookings := db.bookings,
         messages := db.messages,
         next_id := db.next_id },
       Except.ok { r with status := st }) := by
  have hrid : (r.id == rid) = true := by
    have hx := List.find?_some h
    simpa using hx
  have hr2 : (db.rides.map (fun x =>
      if x.id == rid then { x with status := st } else x)).find? (fun x => x.id == rid) =
        some { r with status := st } := by
    rw [find?_map_comm _ _ (setstat_pres_id rid st)]
    unfold findRide at h
    rw [h, Option.map_some']
    simp [hrid]
  have hd' : (r.driver_id != u) = false := by simp [hd]
  have hst' : (st == RideStatus.cancelled) = false := by simpa using hst
  have h' : db.rides.find? (fun x => x.id == rid) = some r := h
  simp only [updateRideStatus, findRide, h', hd', hst', Bool.false_eq_true,
    if_false, hr2, Option.getD_some]

theorem updateRideStatus_ok_cancel {db : DB} {u rid : Nat} {r : Ride}
    (h : findRide db rid = some r) (hd : r.driver_id = u) :
    updateRideStatus db u rid RideStatus.cancelled =
      ({ rides := db.rides.map (fun x =>
            if x.id == rid then { x with status := RideStatus.cancelled } else x),
         bookings := db.bookings.map (cancelIfMem ((confirmedOn db rid).map Booking.id)),
         messages := db.messages ++
           (confirmedOn db rid).map (fun b => ⟨r.id, r.driver_id, b.passenger_id⟩),
         next_id := db.next_id },
       Except.ok { r with status := RideStatus.cancelled }) := by
  have hrid : (r.id == rid) = true := by
    have hx := List.find?_some h
    simpa using hx
  have hfr : (confirmedOn db rid).foldl (cancelNotifyStep r) db =
      ({ rides := db.rides,
         bookings := db.bookings.map (cancelIfMem ((confirmedOn db rid).map Booking.id)),
         messages := db.messages ++
           (confirmedOn db rid).map (fun b => ⟨r.id, r.driver_id, b.passenger_id⟩),
         next_id := db.next_id } : DB) := by
    have h1 := foldl_cascade_rides r (confirmedOn db rid) db
    have h2 := foldl_cascade_next_id r (confirmedOn db rid) db
    have h3 := foldl_cascade_messages r (confirmedOn db rid) db
    have h4 := foldl_cascade_bookings r (confirmedOn db rid) db
    cases hfold : (confirmedOn db rid).foldl (cancelNotifyStep r) db
    rw [hfold] at h1 h2 h3 h4
    simp only at h1 h2 h3 h4
    simp [h1, h2, h3, h4]
  have hr2 : (db.rides.map (fun x =>
      if x.id == rid then { x with status := RideStatus.cancelled } else x)).find?
        (fun x => x.id == rid) = some { r with status := RideStatus.cancelled } := by
    rw [find?_map_comm _ _ (setstat_pres_id rid RideStatus.cancelled)]
    unfold findRide at h
    rw [h, Option.map_some']
    simp [hrid]
  have hd' : (r.driver_id != u) = false := by simp [hd]
  have h' : db.rides.find? (fun x => x.id == rid) = some r := h
  simp only [updateRideStatus, findRide, h', hd', Bool.false_eq_true, if_false,
    beq_self_eq_true, if_true, hfr, hr2, Option.getD_some]

theorem cancelBookingSupabase_err_notfound {db : DB} {u bid : Nat}
    (h : findBooking db bid = none) :
    cancelBookingSupabase db u bid = (db, Except.error ⟨404, "Booking not found"⟩) := by
  simp [cancelBookingSupabase, h]

theorem cancelBookingSupabase_err_forbidden {db : DB} {u bid : Nat} {b : Booking}
    (h : findBooking db bid = some b) (hp : ¬(b.passenger_id = u)) :
    cancelBookingSupabase db u bid = (db, Except.error ⟨403, "Not authorized"⟩) := by
  simp [cancelBookingSupabase, h, hp]

theorem cancelBookingSupabase_err_already {db : DB} {u bid : Nat} {b : Booking}
    (h : findBooking db bid = some b) (hp : b.passenger_id = u)
    (hc : b.booking_status = BookingStatus.cancelled) :
    cancelBookingSupabase db u bid = (db, Except.error ⟨400, "Booking already cancelled"⟩) := by
  simp [cancelBookingSupabase, h, hp, hc]

theorem cancelBookingSupabase_ok_ride {db : DB} {u bid : Nat} {b : Booking} {r : Ride}
    (h : findBooking db bid = some b) (hp : b.passenger_id = u)
    (hc : ¬(b.booking_status = BookingStatus.cancelled))
    (hr : findRide db b.ride_id = some r) :
    cancelBookingSupabase db u bid =
      ({ rides := db.rides.map (fun x =>
            if x.id == b.ride_id then
              { x with available_seats := r.available_seats + b.seats_booked } else x),
         bookings := db.bookings.map (cancelIfId bid),
         messages := db.messages ++ [⟨b.ride_id, u, r.driver_id⟩],
         next_id := db.next_id },
       Except.ok { b with booking_status := BookingStatus.cancelled }) := by
  have hb' : db.bookings.find? (fun x => x.id == bid) = some b := h
  have hb3 := find?_map_cancelIfId hb'
  have hr' : db.rides.find? (fun x => x.id == b.ride_id) = some r := hr
  have hp' : (b.passenger_id != u) = false := by simp [hp]
  have hc' : (b.booking_status == BookingStatus.cancelled) = false := by
    simpa using hc
  simp only [cancelBookingSupabase, findRide, findBooking, hb', hr', hp', hc',
    Bool.false_eq_true, if_false, hb3, Option.getD_some]

/-! ### Claims -/

/-- C3 counterexample: the create-booking handler performs no ride-status
check. Against the store whose only ride has status `cancelled`, passenger
9 books 2 seats and the request succeeds, inserting a booking — the claim
that CreateBooking fails against any non-available ride is false. -/
theorem c3_counterexample :
    rideCancelledW.status = RideStatus.cancelled ∧
    resultOk (createBooking dbCancelledW 9 1 2).2 = true ∧
    (createBooking dbCancelledW 9 1 2).1.bookings.length = 1 := by
  refine ⟨rfl, ?_, ?_⟩ <;> rfl

/-- C3 (amended): the create-booking handler never consults `ride.status`.
For any request with a nonzero seat count it succeeds exactly when the ride
exists, the requester is not the driver, the requested seats do not exceed
`available_seats`, and the requester has no non-cancelled booking on the
ride — irrespective of the ride's status (available, active, completed, or
cancelled). -/
theorem createBooking_ignores_status (db : DB) (u rid : Nat) (seats : Int)
    (hs : ¬(seats = 0)) :
    resultOk (createBooking db u rid seats).2 = true ↔
      ∃ r, findRide db rid = some r ∧ ¬(r.driver_id = u) ∧
        seats ≤ r.available_seats ∧ findActiveBooking db rid u = none := by
  constructor
  · intro hok
    cases hr : findRide db rid with
    | none =>
      rw [createBooking_err_noride hs hr] at hok
      simp [resultOk] at hok
    | some r =>
      by_cases hd : r.driver_id = u
      · rw [createBooking_err_own hs hr hd] at hok
        simp [resultOk] at hok
      · by_cases hlt : r.available_seats < seats
        · rw [createBooking_err_seats hs hr hd hlt] at hok
          simp [resultOk] at hok
        · cases hdup : findActiveBooking db rid u with
          | some b0 =>
            rw [createBooking_err_dup hs hr hd hlt hdup] at hok
            simp [resultOk] at hok
          | none => exact ⟨r, rfl, hd, by omega, rfl⟩
  · rintro ⟨r, hr, hd, hle, hdup⟩
    have hlt : ¬(r.available_seats < seats) := by omega
    rw [createBooking_ok hs hr hd hlt hdup]
    rfl

/-- Witness for the amended C3 theorem: instantiated on the store whose only
ride is cancelled, where the booking nevertheless succeeds. -/
theorem createBooking_ignores_status_witness :
    resultOk (createBooking dbCancelledW 9 1 2).2 = true ↔
      ∃ r, findRide dbCancelledW 1 = some r ∧ ¬(r.driver_id = 9) ∧
        2 ≤ r.available_seats ∧ findActiveBooking dbCancelledW 1 9 = none :=
  createBooking_ignores_status dbCancelledW 9 1 2 (by decide)

/-- C4: the create-booking handler checks its preconditions in the
specified order with the first failure winning: ride existence (404 Ride
not found), then own-ride (400 Cannot book your own ride), then seat
sufficiency (400 Not enough seats available), then duplicate active booking
(400 You already have a booking for this ride). Whenever the spec-side
ordered check `specCreateBookingError` reports an error, the handler
returns exactly that error with the store unchanged, and when it reports
none the handler succeeds. -/
theorem createBooking_error_order (db : DB) (u rid : Nat) (seats : Int)
    (hs : ¬(seats = 0)) :
    (∀ e, specCreateBookingError db u rid seats = some e →
       createBooking db u rid seats = (db, Except.error e)) ∧
    (specCreateBookingError db u rid seats = none →
       resultOk (createBooking db u rid seats).2 = true) := by
  constructor
  · intro e he
    cases hr : findRide db rid with
    | none =>
      rw [specCreateBookingError, hr] at he
      simp only [Option.some.injEq] at he
      rw [← he]
      exact createBooking_err_noride hs hr
    | some r =>
      rw [specCreateBookingError, hr] at he
      by_cases hd : r.driver_id = u
      · simp only [hd, beq_self_eq_true, if_true, Option.some.injEq] at he
        rw [← he]
        exact createBooking_err_own hs hr hd
      · have hd' : (r.driver_id == u) = false := by simpa using hd
        by_cases hlt : r.available_seats < seats
        · simp only [hd', Bool.false_eq_true, if_false, hlt, if_true, Option.some.injEq] at he
          rw [← he]
          exact createBooking_err_seats hs hr hd hlt
        · cases hdup : findActiveBooking db rid u with
          | some b0 =>
            simp only [hd', Bool.false_eq_true, if_false, hlt, if_true, hdup,
              Option.isSome_some, Option.some.injEq] at he
            rw [← he]
            exact createBooking_err_dup hs hr hd hlt hdup
          | none =>
            simp only [hd', Bool.false_eq_true, if_false, hlt, hdup,
              Option.isSome_none, if_true] at he
            cases he
  · intro hnone
    cases hr : findRide db rid with
    | none => rw [specCreateBookingError, hr] at hnone; cases hnone
    | some r =>
      rw [specCreateBookingError, hr] at hnone
      by_cases hd : r.driver_id = u
      · simp [hd] at hnone
      · have hd' : (r.driver_id == u) = false := by simpa using hd
        by_cases hlt : r.available_seats < seats
        · simp [hd', hlt] at hnone
        · cases hdup : findActiveBooking db rid u with
          | some b0 => simp [hd', hlt, hdup] at hnone
          | none =>
            rw [createBooking_ok hs hr hd hlt hdup]
            rfl

/-- Witness for C4: in a store where the requester is the driver and the
seats are also insufficient, the earliest violated precondition (own ride)
supplies the error. -/
theorem createBooking_error_order_witness :
    specCreateBookingError dbW 7 1 9 = some ⟨400, "Cannot book your own ride"⟩ ∧
    createBooking dbW 7 1 9 = (dbW, Except.error ⟨400, "Cannot book your own ride"⟩) := by
  refine ⟨by rfl, ?_⟩
  exact (createBooking_error_order dbW 7 1 9 (by decide)).1 _ (by rfl)


/-- Decrementing ride update of the create-booking handler preserves ids. -/
theorem dec_pres_id (rid : Nat) (s : Int) : ∀ x : Ride,
    ((if x.id == rid then { x with available_seats := x.available_seats - s } else x : Ride).id
      == rid) = (x.id == rid) := by
  intro x; split <;> rfl

/-- C5: when every precondition holds, the create-booking handler inserts a
booking with status confirmed and `total_price = price_per_seat ×
seats_requested` and decrements the ride's `available_seats` by exactly the
requested seats; requesting exactly `available_seats` succeeds and leaves 0
seats, while requesting more than `available_seats` is rejected with the
insufficient-seats error and an unchanged store. -/
theorem createBooking_effect (db : DB) (u rid : Nat) (seats : Int) (r : Ride)
    (hr : findRide db rid = some r) (hd : ¬(r.driver_id = u)) :
    (1 ≤ seats → seats ≤ r.available_seats → findActiveBooking db rid u = none →
      (createBooking db u rid seats).2 =
        Except.ok ⟨db.next_id, rid, u, seats, BookingStatus.confirmed,
          r.price_per_seat * seats⟩ ∧
      (createBooking db u rid seats).1.bookings =
        db.bookings ++ [⟨db.next_id, rid, u, seats, BookingStatus.confirmed,
          r.price_per_seat * seats⟩] ∧
      (findRide (createBooking db u rid seats).1 rid).map Ride.available_seats =
        some (r.available_seats - seats) ∧
      (seats = r.available_seats →
        (findRide (createBooking db u rid seats).1 rid).map Ride.available_seats = some 0)) ∧
    (r.available_seats < seats → ¬(seats = 0) →
      createBooking db u rid seats = (db, Except.error ⟨400, "Not enough seats available"⟩)) := by
  constructor
  · intro h1 hle hdup
    have hs : ¬(seats = 0) := by omega
    have hlt : ¬(r.available_seats < seats) := by omega
    have hrid : (r.id == rid) = true := by
      have hx := List.find?_some hr
      simpa using hx
    have hfind : ((db.rides.map (fun x =>
        if x.id == rid then { x with available_seats := x.available_seats - seats } else x)).find?
          (fun x => x.id == rid)) = some { r with available_seats := r.available_seats - seats } := by
      rw [find?_map_comm _ _ (dec_pres_id rid seats)]
      unfold findRide at hr
      rw [hr, Option.map_some']
      simp [hrid]
    rw [createBooking_ok hs hr hd hlt hdup]
    refine ⟨rfl, rfl, ?_, ?_⟩
    · simp only [findRide, hfind, Option.map_some']
    · intro hexact
      simp only [findRide, hfind, Option.map_some', Option.some.injEq]
      omega
  · intro hlt hs
    exact createBooking_err_seats hs hr hd hlt

/-- Witness for C5: on the four-seat ride, booking exactly 4 seats succeeds
at total price 400 and leaves 0 available seats, while booking 5 is
rejected. -/
theorem createBooking_effect_witness :
    ((createBooking dbW 9 1 4).2 =
        Except.ok ⟨2, 1, 9, 4, BookingStatus.confirmed, 400⟩ ∧
      (findRide (createBooking dbW 9 1 4).1 1).map Ride.available_seats = some 0) ∧
    createBooking dbW 9 1 5 = (dbW, Except.error ⟨400, "Not enough seats available"⟩) := by
  have h4 := (createBooking_effect dbW 9 1 4 rideW (by rfl) (by decide)).1
    (by decide) (by decide) (by rfl)
  have h5 := (createBooking_effect dbW 9 1 5 rideW (by rfl) (by decide)).2
    (by decide) (by decide)
  refine ⟨⟨?_, h4.2.2.2 (by decide)⟩, h5⟩
  have := h4.1
  simpa using this

/-- C6: booking cancellation rejects a missing booking with 404, a
non-passenger requester with 403, and an already-cancelled booking with
400, each time leaving the store untouched; when the requester is the
passenger and the booking is not yet cancelled it sets the booking to
cancelled and adds `seats_booked` back to the ride's `available_seats`. -/
theorem cancelBooking_spec (db : DB) (u bid : Nat) :
    (findBooking db bid = none →
      cancelBooking db u bid = (db, Except.error ⟨404, "Booking not found"⟩)) ∧
    (∀ b, findBooking db bid = some b → ¬(b.passenger_id = u) →
      cancelBooking db u bid = (db, Except.error ⟨403, "Not authorized"⟩)) ∧
    (∀ b, findBooking db bid = some b → b.passenger_id = u →
      b.booking_status = BookingStatus.cancelled →
      cancelBooking db u bid = (db, Except.error ⟨400, "Booking already cancelled"⟩)) ∧
    (∀ b, findBooking db bid = some b → b.passenger_id = u →
      ¬(b.booking_status = BookingStatus.cancelled) →
      (cancelBooking db u bid).2 =
        Except.ok { b with booking_status := BookingStatus.cancelled } ∧
      (findRide (cancelBooking db u bid).1 b.ride_id).map Ride.available_seats =
        (findRide db b.ride_id).map (fun x => x.available_seats + b.seats_booked)) := by
  refine ⟨fun h => cancelBooking_err_notfound h,
    fun b h hp => cancelBooking_err_forbidden h hp,
    fun b h hp hc => cancelBooking_err_already h hp hc,
    fun b h hp hc => ?_⟩
  cases hrd : findRide db b.ride_id with
  | none =>
    rw [cancelBooking_ok_noride h hp hc hrd]
    have hnone : ((db.rides.map (fun x =>
        if x.id == b.ride_id then { x with available_seats := x.available_seats + b.seats_booked }
        else x)).find? (fun x => x.id == b.ride_id)) = none := by
      rw [find?_map_comm _ _ (restore_pres_id b.ride_id b.seats_booked)]
      unfold findRide at hrd
      rw [hrd, Option.map_none']
    exact ⟨rfl, by simp only [findRide, hnone, Option.map_none']⟩
  | some r =>
    rw [cancelBooking_ok_ride h hp hc hrd]
    have hrid : (r.id == b.ride_id) = true := by
      have hx := List.find?_some hrd
      simpa using hx
    have hsome : ((db.rides.map (fun x =>
        if x.id == b.ride_id then { x with available_seats := x.available_seats + b.seats_booked }
        else x)).find? (fun x => x.id == b.ride_id)) =
          some { r with available_seats := r.available_seats + b.seats_booked } := by
      rw [find?_map_comm _ _ (restore_pres_id b.ride_id b.seats_booked)]
      unfold findRide at hrd
      rw [hrd, Option.map_some']
      simp [hrid]
    exact ⟨rfl, by simp only [findRide, hsome, Option.map_some']⟩

/-- Witness for C6: on the store with one confirmed booking — a missing id
is 404, a foreign requester is 403, cancelling the cancelled copy is 400,
and the passenger's own cancellation restores the two seats (2 + 2 = 4). -/
theorem cancelBooking_spec_witness :
    cancelBooking dbBooked 9 99 = (dbBooked, Except.error ⟨404, "Booking not found"⟩) ∧
    cancelBooking dbBooked 8 2 = (dbBooked, Except.error ⟨403, "Not authorized"⟩) ∧
    cancelBooking dbBookedC 9 2 = (dbBookedC, Except.error ⟨400, "Booking already cancelled"⟩) ∧
    (cancelBooking dbBooked 9 2).2 =
      Except.ok { bookingW with booking_status := BookingStatus.cancelled } ∧
    (findRide (cancelBooking dbBooked 9 2).1 1).map Ride.available_seats = some 4 := by
  have hnf := (cancelBooking_spec dbBooked 9 99).1 (by rfl)
  have hforb := (cancelBooking_spec dbBooked 8 2).2.1 bookingW (by rfl) (by decide)
  have halr := (cancelBooking_spec dbBookedC 9 2).2.2.1 bookingCancelledW (by rfl)
    (by decide) (by decide)
  have hok := (cancelBooking_spec dbBooked 9 2).2.2.2 bookingW (by rfl) (by decide) (by decide)
  refine ⟨hnf, hforb, halr, hok.1, ?_⟩
  exact hok.2.trans (by decide)


/-- Membership form of the cascade update: ids that occur are cancelled. -/
theorem cancelIfMem_eq_of_mem {ids : List Nat} {b : Booking} (h : b.id ∈ ids) :
    cancelIfMem ids b = { b with booking_status := BookingStatus.cancelled } := by
  have hc : ids.contains b.id = true := by simpa using h
  simp [cancelIfMem, hc]
  exact fun h2 => absurd h h2

/-- Membership form of the cascade update: absent ids are untouched. -/
theorem cancelIfMem_eq_of_not_mem {ids : List Nat} {b : Booking} (h : ¬ b.id ∈ ids) :
    cancelIfMem ids b = b := by
  have hc : ids.contains b.id = false := by simpa using h
  simp [cancelIfMem, hc]
  exact fun h2 => absurd h2 h

/-- Sets a ride's seats to an arbitrary computed value; preserves ids. -/
theorem setavail_pres_id (rid : Nat) (f : Ride → Int) : ∀ x : Ride,
    ((if x.id == rid then { x with available_seats := f x } else x : Ride).id == rid) =
      (x.id == rid) := by
  intro x; split <;> rfl

/-- C7: cancelling a ride leaves every ride's `available_seats` untouched —
the cascade only rewrites booking statuses and then the ride's status —
whereas a passenger-initiated booking cancellation does add the booking's
`seats_booked` back onto its ride. -/
theorem cancelRide_keeps_seats :
    (∀ (db : DB) (u rid : Nat) (db2 : DB) (r2 : Ride),
      updateRideStatus db u rid RideStatus.cancelled = (db2, Except.ok r2) →
      db2.rides.map Ride.available_seats = db.rides.map Ride.available_seats) ∧
    (∀ (db : DB) (u bid : Nat) (b : Booking), findBooking db bid = some b →
      b.passenger_id = u → ¬(b.booking_status = BookingStatus.cancelled) →
      (findRide (cancelBooking db u bid).1 b.ride_id).map Ride.available_seats =
        (findRide db b.ride_id).map (fun x => x.available_seats + b.seats_booked)) := by
  constructor
  · intro db u rid db2 r2 heq
    cases h : findRide db rid with
    | none =>
      rw [updateRideStatus_err_notfound h] at heq
      simp at heq
    | some r =>
      by_cases hd : r.driver_id = u
      · rw [updateRideStatus_ok_cancel h hd] at heq
        have hdb2 : db2.rides = db.rides.map (fun x =>
            if x.id == rid then { x with status := RideStatus.cancelled } else x) := by
          have h1 := congrArg Prod.fst heq
          simp only at h1
          rw [← h1]
        rw [hdb2]
        exact map_key_map _ Ride.available_seats
          (fun x => by split <;> rfl) db.rides
      · rw [updateRideStatus_err_forbidden h hd] at heq
        simp at heq
  · intro db u bid b h hp hc
    cases hrd : findRide db b.ride_id with
    | none =>
      rw [cancelBooking_ok_noride h hp hc hrd]
      have hnone : ((db.rides.map (fun x =>
          if x.id == b.ride_id then
            { x with available_seats := x.available_seats + b.seats_booked }
          else x)).find? (fun x => x.id == b.ride_id)) = none := by
        rw [find?_map_comm _ _ (restore_pres_id b.ride_id b.seats_booked)]
        unfold findRide at hrd
        rw [hrd, Option.map_none']
      simp only [findRide, hnone, Option.map_none']
    | some r =>
      rw [cancelBooking_ok_ride h hp hc hrd]
      have hrid : (r.id == b.ride_id) = true := by
        have hx := List.find?_some hrd
        simpa using hx
      have hsome : ((db.rides.map (fun x =>
          if x.id == b.ride_id then
            { x with available_seats := x.available_seats + b.seats_booked }
          else x)).find? (fun x => x.id == b.ride_id)) =
            some { r with available_seats := r.available_seats + b.seats_booked } := by
        rw [find?_map_comm _ _ (restore_pres_id b.ride_id b.seats_booked)]
        unfold findRide at hrd
        rw [hrd, Option.map_some']
        simp [hrid]
      simp only [findRide, hsome, Option.map_some']

/-- Witness for C7: cancelling the ride with one confirmed two-seat booking
leaves its 2 available seats untouched; the passenger cancelling the same
booking instead restores them to 4. -/
theorem cancelRide_keeps_seats_witness :
    (updateRideStatus dbBooked 7 1 RideStatus.cancelled).1.rides.map Ride.available_seats =
      dbBooked.rides.map Ride.available_seats ∧
    (findRide (cancelBooking dbBooked 9 2).1 1).map Ride.available_seats = some 4 := by
  constructor
  · exact (cancelRide_keeps_seats.1 dbBooked 7 1
      (updateRideStatus dbBooked 7 1 RideStatus.cancelled).1
      ⟨1, 7, 4, 2, 100, RideStatus.cancelled⟩ (by rfl))
  · exact (cancelRide_keeps_seats.2 dbBooked 9 2 bookingW (by rfl) (by decide)
      (by decide)).trans (by decide)

/-- C8 counterexample: `cancelled` is not terminal. The status-update
handler never inspects the current status, so the driver of the cancelled
ride moves it straight back to `available`. -/
theorem c8_counterexample :
    rideCancelledW.status = RideStatus.cancelled ∧
    (updateRideStatus dbCancelledW 7 1 RideStatus.available).2 =
      Except.ok ⟨1, 7, 4, 4, 100, RideStatus.available⟩ ∧
    (findRide (updateRideStatus dbCancelledW 7 1 RideStatus.available).1 1).map Ride.status =
      some RideStatus.available := by
  refine ⟨rfl, by rfl, by rfl⟩

/-- C8 (amended): the status-update handler enforces no state machine at
all: whatever the ride's current status, the owner's request succeeds and
sets exactly the requested status — in particular a cancelled ride can be
moved back to available, active, or completed. -/
theorem updateRideStatus_no_guard (db : DB) (u rid : Nat) (st : RideStatus) (r : Ride)
    (h : findRide db rid = some r) (hd : r.driver_id = u) :
    (updateRideStatus db u rid st).2 = Except.ok { r with status := st } := by
  by_cases hst : st = RideStatus.cancelled
  · subst hst
    rw [updateRideStatus_ok_cancel h hd]
  · rw [updateRideStatus_ok_other h hd hst]

/-- Witness for the amended C8 theorem: the driver resurrects the cancelled
ride to `available`. -/
theorem updateRideStatus_no_guard_witness :
    (updateRideStatus dbCancelledW 7 1 RideStatus.available).2 =
      Except.ok { rideCancelledW with status := RideStatus.available } :=
  updateRideStatus_no_guard dbCancelledW 7 1 RideStatus.available rideCancelledW
    (by rfl) (by decide)

/-- C2: ride cancellation by the owner cancels every booking whose id is in
the confirmed-bookings selection (so no confirmed booking on the ride
survives), emits exactly one notification per previously-confirmed booking,
sent by the driver to that booking's passenger, and returns the ride with
status cancelled. -/
theorem cancelRide_cascade (db : DB) (u rid : Nat) (r : Ride)
    (h : findRide db rid = some r) (hd : r.driver_id = u) :
    (updateRideStatus db u rid RideStatus.cancelled).2 =
      Except.ok { r with status := RideStatus.cancelled } ∧
    ((updateRideStatus db u rid RideStatus.cancelled).1.bookings =
      db.bookings.map (cancelIfMem ((confirmedOn db rid).map Booking.id))) ∧
    (∀ b ∈ (updateRideStatus db u rid RideStatus.cancelled).1.bookings,
      b.ride_id = rid → ¬(b.booking_status = BookingStatus.confirmed)) ∧
    ((updateRideStatus db u rid RideStatus.cancelled).1.messages =
      db.messages ++ (confirmedOn db rid).map (fun b => ⟨r.id, r.driver_id, b.passenger_id⟩)) ∧
    ((findRide (updateRideStatus db u rid RideStatus.cancelled).1 rid).map Ride.status =
      some RideStatus.cancelled) := by
  have hrid : (r.id == rid) = true := by
    have hx := List.find?_some h
    simpa using hx
  have hr2 : (db.rides.map (fun x =>
      if x.id == rid then { x with status := RideStatus.cancelled } else x)).find?
        (fun x => x.id == rid) = some { r with status := RideStatus.cancelled } := by
    rw [find?_map_comm _ _ (setstat_pres_id rid RideStatus.cancelled)]
    have h' : db.rides.find? (fun x => x.id == rid) = some r := h
    rw [h', Option.map_some']
    simp [hrid]
  rw [updateRideStatus_ok_cancel h hd]
  refine ⟨rfl, rfl, ?_, rfl, by simp only [findRide, hr2, Option.map_some']⟩
  intro b hb hbr hbc
  rcases List.mem_map.mp hb with ⟨b0, hb0, rfl⟩
  by_cases hcont : b0.id ∈ (confirmedOn db rid).map Booking.id
  · rw [cancelIfMem_eq_of_mem hcont] at hbc
    simp at hbc
  · rw [cancelIfMem_eq_of_not_mem hcont] at hbr hbc
    have hmemC : b0 ∈ confirmedOn db rid := by
      refine List.mem_filter.mpr ⟨hb0, ?_⟩
      simp [isConfirmedOn, hbr, hbc]
    exact hcont (List.mem_map_of_mem Booking.id hmemC)

/-- Witness for C2: cancelling the booked ride cancels its confirmed
booking and notifies passenger 9 once. -/
theorem cancelRide_cascade_witness :
    (updateRideStatus dbBooked 7 1 RideStatus.cancelled).2 =
      Except.ok ⟨1, 7, 4, 2, 100, RideStatus.cancelled⟩ ∧
    (∀ b ∈ (updateRideStatus dbBooked 7 1 RideStatus.cancelled).1.bookings,
      b.ride_id = 1 → ¬(b.booking_status = BookingStatus.confirmed)) ∧
    (updateRideStatus dbBooked 7 1 RideStatus.cancelled).1.messages = [⟨1, 7, 9⟩] := by
  have hw := cancelRide_cascade dbBooked 7 1 ⟨1, 7, 4, 2, 100, RideStatus.available⟩
    (by rfl) (by decide)
  exact ⟨hw.1, hw.2.2.1, hw.2.2.2.1.trans (by decide)⟩

/-- C10: the SQLite route (relative `UPDATE ... available_seats =
available_seats + ?`) and the Supabase route (absolute write of the seat
count read with the booking) are sequentially equivalent: starting from the
same store, with the booking and its ride present, both return the same
response, give the booking the same final status, and leave the same
`available_seats` on the booking's ride. -/
theorem cancelBooking_impls_agree (db : DB) (u bid : Nat) (b : Booking) (r : Ride)
    (h : findBooking db bid = some b) (hr : findRide db b.ride_id = some r) :
    agreeOn b.ride_id (cancelBooking db u bid) (cancelBookingSupabase db u bid) := by
  have hrid : (r.id == b.ride_id) = true := by
    have hx := List.find?_some hr
    simpa using hx
  by_cases hp : b.passenger_id = u
  · by_cases hc : b.booking_status = BookingStatus.cancelled
    · rw [cancelBooking_err_already h hp hc, cancelBookingSupabase_err_already h hp hc]
      exact ⟨rfl, rfl⟩
    · rw [cancelBooking_ok_ride h hp hc hr, cancelBookingSupabase_ok_ride h hp hc hr]
      refine ⟨rfl, ?_⟩
      have h1 : ((db.rides.map (fun x =>
          if x.id == b.ride_id then
            { x with available_seats := x.available_seats + b.seats_booked }
          else x)).find? (fun x => x.id == b.ride_id)) =
            some { r with available_seats := r.available_seats + b.seats_booked } := by
        rw [find?_map_comm _ _ (restore_pres_id b.ride_id b.seats_booked)]
        unfold findRide at hr
        rw [hr, Option.map_some']
        simp [hrid]
      have h2 : ((db.rides.map (fun x =>
          if x.id == b.ride_id then
            { x with available_seats := r.available_seats + b.seats_booked }
          else x)).find? (fun x => x.id == b.ride_id)) =
            some { r with available_seats := r.available_seats + b.seats_booked } := by
        rw [find?_map_comm _ _ (setavail_pres_id b.ride_id
          (fun _ => r.available_seats + b.seats_booked))]
        unfold findRide at hr
        rw [hr, Option.map_some']
        simp [hrid]
      simp only [findRide, h1, h2]
  · rw [cancelBooking_err_forbidden h hp, cancelBookingSupabase_err_forbidden h hp]
    exact ⟨rfl, rfl⟩

/-- Witness for C10: both implementations cancel booking 2 of the booked
store identically. -/
theorem cancelBooking_impls_agree_witness :
    agreeOn 1 (cancelBooking dbBooked 9 2) (cancelBookingSupabase dbBooked 9 2) :=
  cancelBooking_impls_agree dbBooked 9 2 bookingW ⟨1, 7, 4, 2, 100, RideStatus.available⟩
    (by rfl) (by rfl)


/-- Counting over a constant-valued map. -/
theorem countP_map_const {α β : Type} (l : List α) (c : β) (p : β → Bool) :
    (l.map (fun _ => c)).countP p = if p c then l.length else 0 := by
  induction l with
  | nil => simp
  | cons a t ih =>
    simp only [List.map_cons, List.countP_cons, ih]
    cases hp : p c <;> simp [hp]

/-- Batch booking against a ride with no seats left: every request is
rejected with the insufficient-seats error and the store never changes. -/
theorem processBookings_empty_seats (rid : Nat) (r : Ride) :
    ∀ (ps : List Nat) (db : DB), findRide db rid = some r → r.available_seats = 0 →
      (∀ p ∈ ps, ¬(p = r.driver_id)) →
      processBookings db rid ps = (db, ps.map (fun _ => Except.error seatErr)) := by
  intro ps
  induction ps with
  | nil => intro db _ _ _; rfl
  | cons p pt ih =>
    intro db hr h0 hdr
    have hd : ¬(r.driver_id = p) := fun he => (hdr p (List.mem_cons_self p pt)) he.symm
    have hlt : r.available_seats < 1 := by omega
    have hstep := createBooking_err_seats (by norm_num : ¬((1 : Int) = 0)) hr hd hlt
    have hrec := ih db hr h0 (fun q hq => hdr q (List.mem_cons_of_mem p hq))
    simp only [processBookings, hstep, hrec, List.map_cons]
    rfl

/-- C9: any arrival order of N distinct one-seat booking requests against a
ride with K < N seats left yields exactly K successes and N − K
insufficient-seats rejections, and drives `available_seats` to exactly 0 —
never below. The SQLite handler runs synchronously (no `await` between its
seat check and its decrement), so concurrent requests are serialized into
exactly such an arrival order. -/
theorem bookings_never_oversell (rid d : Nat) :
    ∀ (ps : List Nat) (db : DB) (K : Nat) (r : Ride),
      findRide db rid = some r → r.driver_id = d → r.available_seats = (K : Int) →
      ps.Nodup → (∀ p ∈ ps, ¬(p = d)) →
      (∀ p ∈ ps, findActiveBooking db rid p = none) →
      K < ps.length →
      ((processBookings db rid ps).2.countP resultOk = K ∧
       (processBookings db rid ps).2.countP isSeatErr = ps.length - K ∧
       (findRide (processBookings db rid ps).1 rid).map Ride.available_seats = some 0) := by
  intro ps
  induction ps with
  | nil => intro db K r _ _ _ _ _ _ hK; simp at hK
  | cons p pt ih =>
    intro db K r hr hdrv hK hnd hdr hact hKlt
    cases K with
    | zero =>
      have hz := processBookings_empty_seats rid r (p :: pt) db hr (by omega)
        (fun q hq => fun he => hdr q hq (he.trans hdrv))
      rw [hz]
      refine ⟨?_, ?_, ?_⟩
      · rw [countP_map_const]
        simp [resultOk]
      · rw [countP_map_const]
        simp [isSeatErr]
      · rw [hr, Option.map_some', hK]
        norm_num

    | succ K2 =>
      have hd : ¬(r.driver_id = p) :=
        fun he => hdr p (List.mem_cons_self p pt) (he.symm.trans hdrv)
      have hlt : ¬(r.available_seats < 1) := by omega
      have hdup : findActiveBooking db rid p = none := hact p (List.mem_cons_self p pt)
      have hok := createBooking_ok (by norm_num : ¬((1 : Int) = 0)) hr hd hlt hdup
      have hrid : (r.id == rid) = true := by
        have hx := List.find?_some hr
        simpa using hx
      have hfind : ((db.rides.map (fun x =>
          if x.id == rid then { x with available_seats := x.available_seats - 1 } else x)).find?
            (fun x => x.id == rid)) =
            some { r with available_seats := r.available_seats - 1 } := by
        rw [find?_map_comm _ _ (dec_pres_id rid 1)]
        unfold findRide at hr
        rw [hr, Option.map_some']
        simp [hrid]
      have hnotp : p ∉ pt := (List.nodup_cons.mp hnd).1
      have hrec := ih
        ({ rides := db.rides.map (fun x =>
              if x.id == rid then { x with available_seats := x.available_seats - 1 } else x),
           bookings := db.bookings ++
             [⟨db.next_id, rid, p, 1, BookingStatus.confirmed, r.price_per_seat * 1⟩],
           messages := db.messages ++ [⟨rid, p, r.driver_id⟩],
           next_id := db.next_id + 1 })
        K2 { r with available_seats := r.available_seats - 1 }
        (by
          show findRide _ rid = _
          unfold findRide
          exact hfind)
        hdrv
        (by
          show r.available_seats - 1 = (K2 : Int)
          omega)
        (List.nodup_cons.mp hnd).2
        (fun q hq => hdr q (List.mem_cons_of_mem p hq))
        (by
          intro q hq
          have hqnone := hact q (List.mem_cons_of_mem p hq)
          unfold findActiveBooking at hqnone ⊢
          rw [List.find?_eq_none] at hqnone ⊢
          intro x hx
          rcases List.mem_append.mp hx with hx1 | hx2
          · exact hqnone x hx1
          · rcases List.mem_singleton.mp hx2 with rfl
            have hqp : ¬(p = q) := fun he => hnotp (he ▸ hq)
            simp [hqp])
        (by
          have := hKlt
          simp only [List.length_cons] at this
          omega)
      simp only [processBookings, hok, List.countP_cons]
      refine ⟨?_, ?_, ?_⟩
      · rw [hrec.1]
        simp [resultOk]
      · rw [hrec.2.1]
        simp only [List.length_cons]
        simp [isSeatErr]
      · exact hrec.2.2


/-- Witness for C9: three distinct passengers race for the two remaining
seats of `rideK`; exactly two succeed, one gets the seat rejection, and the
ride ends at exactly 0 seats. -/
theorem bookings_never_oversell_witness :
    (processBookings dbK 1 [11, 12, 13]).2.countP resultOk = 2 ∧
    (processBookings dbK 1 [11, 12, 13]).2.countP isSeatErr = 1 ∧
    (findRide (processBookings dbK 1 [11, 12, 13]).1 1).map Ride.available_seats = some 0 := by
  have hw := bookings_never_oversell 1 7 [11, 12, 13] dbK 2 rideK (by rfl) (by rfl)
    (by decide) (by decide) (by decide) (by decide) (by decide)
  exact ⟨hw.1, hw.2.1, hw.2.2⟩


/-- No booking references ride `rid`, so its seat sum is 0. -/
theorem seatSum_zero_of_no_ride {rid : Nat} {bs : List Booking}
    (h : ∀ b ∈ bs, ¬(b.ride_id = rid)) : seatSum rid bs = 0 := by
  unfold seatSum
  have hf : bs.filter (isConfirmedOn rid) = [] := by
    rw [List.filter_eq_nil_iff]
    intro b hb
    simp [isConfirmedOn, h b hb]
  rw [hf]
  rfl

/-- After the cascade over ride `rid`, no confirmed seats remain on `rid`. -/
theorem seatSum_cascade_self (rid : Nat) (bs : List Booking) :
    seatSum rid (bs.map (cancelIfMem ((bs.filter (isConfirmedOn rid)).map Booking.id))) = 0 := by
  unfold seatSum
  have hf : (bs.map (cancelIfMem ((bs.filter (isConfirmedOn rid)).map Booking.id))).filter
      (isConfirmedOn rid) = [] := by
    rw [List.filter_eq_nil_iff]
    intro y hy
    rcases List.mem_map.mp hy with ⟨b0, hb0, rfl⟩
    by_cases hin : b0.id ∈ (bs.filter (isConfirmedOn rid)).map Booking.id
    · rw [cancelIfMem_eq_of_mem hin]
      simp [isConfirmedOn]
    · rw [cancelIfMem_eq_of_not_mem hin]
      intro hconf
      exact hin (List.mem_map_of_mem Booking.id (List.mem_filter.mpr ⟨hb0, hconf⟩))
  rw [hf]
  rfl

/-- The cascade over ride `rid` leaves every other ride's seat sum alone
(bookings have unique ids). -/
theorem seatSum_cascade_other {bs : List Booking} (hnd : (bs.map Booking.id).Nodup)
    (rid rid2 : Nat) (hne : ¬(rid2 = rid)) :
    seatSum rid2 (bs.map (cancelIfMem ((bs.filter (isConfirmedOn rid)).map Booking.id))) =
      seatSum rid2 bs := by
  apply seatSum_map_invariant
  intro b0 hb0
  by_cases hin : b0.id ∈ (bs.filter (isConfirmedOn rid)).map Booking.id
  · rcases List.mem_map.mp hin with ⟨c, hcmem, hcid⟩
    have hceq : c = b0 :=
      eq_of_key_nodup Booking.id hnd (List.mem_filter.mp hcmem).1 hb0 hcid
    have hbrid : isConfirmedOn rid b0 = true := by
      have := (List.mem_filter.mp hcmem).2
      rwa [hceq] at this
    have hb0rid : b0.ride_id = rid := by
      have hsplit := hbrid
      unfold isConfirmedOn at hsplit
      simp only [Bool.and_eq_true, beq_iff_eq] at hsplit
      exact hsplit.1
    rw [cancelIfMem_eq_of_mem hin]
    constructor
    · have hr2 : (rid == rid2) = false := beq_eq_false_iff_ne.mpr (fun he => hne he.symm)
      simp [isConfirmedOn, hb0rid, hr2]
    · rfl
  · rw [cancelIfMem_eq_of_not_mem hin]
    exact ⟨rfl, rfl⟩

/-- The empty store is well-formed. -/
theorem wf_empty : WF ⟨[], [], [], 0⟩ := by
  constructor <;> simp [seatSum_nil]

/-- Appending a fresh ride with seats within bounds preserves
well-formedness. -/
theorem wf_insert_ride {db : DB} (w : WF db) (u : Nat) (total avail price : Int)
    (h0 : 0 ≤ avail) (h1 : avail ≤ total) :
    WF { db with
      rides := db.rides ++ [⟨db.next_id, u, total, avail, price, RideStatus.available⟩],
      next_id := db.next_id + 1 } := by
  have hfresh : ∀ b ∈ db.bookings, ¬(b.ride_id = db.next_id) :=
    fun b hb he => absurd (he ▸ w.bookings_ride_lt b hb) (by omega)
  refine ⟨?_, ?_, ?_, ?_, ?_, ?_, ?_, ?_, ?_⟩
  · intro r hr
    rcases List.mem_append.mp hr with hr1 | hr2
    · exact Nat.lt_succ_of_lt (w.rides_id_lt r hr1)
    · rcases List.mem_singleton.mp hr2 with rfl
      exact Nat.lt_succ_self _
  · simp only [List.map_append, List.map_cons, List.map_nil]
    rw [List.nodup_append]
    refine ⟨w.rides_nodup, List.nodup_singleton _, ?_⟩
    intro a ha hb
    rcases List.mem_map.mp ha with ⟨r0, hr0, rfl⟩
    rcases List.mem_singleton.mp hb with heq
    exact absurd (heq ▸ w.rides_id_lt r0 hr0) (by simp)
  · exact fun b hb => Nat.lt_succ_of_lt (w.bookings_id_lt b hb)
  · exact w.bookings_nodup
  · exact fun b hb => Nat.lt_succ_of_lt (w.bookings_ride_lt b hb)
  · exact w.seats_pos
  · exact w.status_ok
  · intro r hr
    rcases List.mem_append.mp hr with hr1 | hr2
    · exact w.avail_nonneg r hr1
    · rcases List.mem_singleton.mp hr2 with rfl
      exact h0
  · intro r hr
    rcases List.mem_append.mp hr with hr1 | hr2
    · exact w.avail_bound r hr1
    · rcases List.mem_singleton.mp hr2 with rfl
      rw [seatSum_zero_of_no_ride hfresh]
      simpa using h1

/-- Ride creation with a positive seat total and an in-range (or absent)
available-seats request preserves well-formedness. -/
theorem wf_createRide {db : DB} (w : WF db) (u : Nat) (inp : RideInput)
    (ht : 1 ≤ inp.total_seats)
    (ha : ∀ a ∈ inp.available_seats, 0 ≤ a ∧ a ≤ inp.total_seats) :
    WF (createRide db u inp).1 := by
  unfold createRide
  split
  · exact w
  · have havail : 0 ≤ (match inp.available_seats with
        | some a => if a == 0 then inp.total_seats else a
        | none => inp.total_seats) ∧
      (match inp.available_seats with
        | some a => if a == 0 then inp.total_seats else a
        | none => inp.total_seats) ≤ inp.total_seats := by
      cases hopt : inp.available_seats with
      | none =>
        dsimp only
        exact ⟨by omega, le_refl _⟩
      | some a =>
        have hb := ha a (by rw [hopt]; rfl)
        by_cases h0 : a = 0
        · simp [h0]
          omega
        · have h0' : (a == 0) = false := by simpa using h0
          simp [h0']
          omega
    exact wf_insert_ride w u inp.total_seats _ inp.price_per_seat havail.1 havail.2


/-- Booking creation (with at least one requested seat) preserves
well-formedness. -/
theorem wf_createBooking {db : DB} (w : WF db) (u rid : Nat) {seats : Int}
    (hseats : 1 ≤ seats) :
    WF (createBooking db u rid seats).1 := by
  have hs : ¬(seats = 0) := by omega
  cases hr : findRide db rid with
  | none => rw [createBooking_err_noride hs hr]; exact w
  | some r =>
    by_cases hd : r.driver_id = u
    · rw [createBooking_err_own hs hr hd]; exact w
    · by_cases hlt : r.available_seats < seats
      · rw [createBooking_err_seats hs hr hd hlt]; exact w
      · cases hdup : findActiveBooking db rid u with
        | some b0 => rw [createBooking_err_dup hs hr hd hlt hdup]; exact w
        | none =>
          rw [createBooking_ok hs hr hd hlt hdup]
          have hr' : db.rides.find? (fun x => x.id == rid) = some r := hr
          have hmem_r : r ∈ db.rides := List.mem_of_find?_eq_some hr'
          have hrideq : r.id = rid := by
            have hx := List.find?_some hr'
            simpa using hx
          refine ⟨?_, ?_, ?_, ?_, ?_, ?_, ?_, ?_, ?_⟩
          · intro x hx
            rcases List.mem_map.mp hx with ⟨x0, hx0, rfl⟩
            have hlt0 := w.rides_id_lt x0 hx0
            split <;> exact Nat.lt_succ_of_lt hlt0
          · rw [map_key_map _ Ride.id (fun x => by split <;> rfl)]
            exact w.rides_nodup
          · intro b hb
            rcases List.mem_append.mp hb with hb1 | hb2
            · exact Nat.lt_succ_of_lt (w.bookings_id_lt b hb1)
            · rcases List.mem_singleton.mp hb2 with rfl
              exact Nat.lt_succ_self _
          · simp only [List.map_append, List.map_cons, List.map_nil]
            rw [List.nodup_append]
            refine ⟨w.bookings_nodup, List.nodup_singleton _, ?_⟩
            intro a ha hbm
            rcases List.mem_map.mp ha with ⟨c, hc, rfl⟩
            rcases List.mem_singleton.mp hbm with heq
            exact absurd (heq ▸ w.bookings_id_lt c hc) (by simp)
          · intro b hb
            rcases List.mem_append.mp hb with hb1 | hb2
            · exact Nat.lt_succ_of_lt (w.bookings_ride_lt b hb1)
            · rcases List.mem_singleton.mp hb2 with rfl
              exact Nat.lt_succ_of_lt (hrideq ▸ w.rides_id_lt r hmem_r)
          · intro b hb
            rcases List.mem_append.mp hb with hb1 | hb2
            · exact w.seats_pos b hb1
            · rcases List.mem_singleton.mp hb2 with rfl
              exact hseats
          · intro b hb
            rcases List.mem_append.mp hb with hb1 | hb2
            · exact w.status_ok b hb1
            · rcases List.mem_singleton.mp hb2 with rfl
              exact Or.inl rfl
          · intro x hx
            rcases List.mem_map.mp hx with ⟨x0, hx0, rfl⟩
            by_cases hc : x0.id = rid
            · have hx0r : x0 = r :=
                eq_of_key_nodup Ride.id w.rides_nodup hx0 hmem_r (by rw [hc, hrideq])
              subst hx0r
              have hc' : (x0.id == rid) = true := by simpa using hc
              simp only [hc', if_true]
              have := w.avail_nonneg x0 hx0
              omega
            · have hc' : (x0.id == rid) = false := by simpa using hc
              simp only [hc', Bool.false_eq_true, if_false]
              exact w.avail_nonneg x0 hx0
          · intro x hx
            rcases List.mem_map.mp hx with ⟨x0, hx0, rfl⟩
            by_cases hc : x0.id = rid
            · have hx0r : x0 = r :=
                eq_of_key_nodup Ride.id w.rides_nodup hx0 hmem_r (by rw [hc, hrideq])
              subst hx0r
              have hc' : (x0.id == rid) = true := by simpa using hc
              simp only [hc', if_true]
              rw [seatSum_append, seatSum_cons, seatSum_nil]
              have hconf : isConfirmedOn x0.id
                  (⟨db.next_id, rid, u, seats, BookingStatus.confirmed,
                    x0.price_per_seat * seats⟩ : Booking) = true := by
                simp [isConfirmedOn, hrideq]
              rw [hconf]
              have hbound := w.avail_bound x0 hx0
              simp only [if_true]
              omega
            · have hc' : (x0.id == rid) = false := by simpa using hc
              simp only [hc', Bool.false_eq_true, if_false]
              rw [seatSum_append, seatSum_cons, seatSum_nil]
              have hconf : isConfirmedOn x0.id
                  (⟨db.next_id, rid, u, seats, BookingStatus.confirmed,
                    r.price_per_seat * seats⟩ : Booking) = false := by
                have : ¬(rid = x0.id) := fun he => hc he.symm
                simp [isConfirmedOn, this]
              rw [hconf]
              have hbound := w.avail_bound x0 hx0
              simp only [Bool.false_eq_true, if_false]
              omega


/-- Cancelling one non-cancelled booking and restoring its seats preserves
well-formedness, whatever happens to the message table. -/
theorem wf_cancel_effect {db : DB} (w : WF db) {bid : Nat} {b : Booking} (msgs : List Message)
    (h : findBooking db bid = some b) (hc : ¬(b.booking_status = BookingStatus.cancelled)) :
    WF { rides := db.rides.map (fun x =>
           if x.id == b.ride_id then
             { x with available_seats := x.available_seats + b.seats_booked } else x),
         bookings := db.bookings.map (cancelIfId bid),
         messages := msgs,
         next_id := db.next_id } := by
  have hb' : db.bookings.find? (fun x => x.id == bid) = some b := h
  have hmem_b : b ∈ db.bookings := List.mem_of_find?_eq_some hb'
  have hbid : b.id = bid := by
    have hx := List.find?_some hb'
    simpa using hx
  have hconf : b.booking_status = BookingStatus.confirmed :=
    (w.status_ok b hmem_b).resolve_right hc
  subst hbid
  refine ⟨?_, ?_, ?_, ?_, ?_, ?_, ?_, ?_, ?_⟩
  · intro x hx
    rcases List.mem_map.mp hx with ⟨x0, hx0, rfl⟩
    have hlt0 := w.rides_id_lt x0 hx0
    split <;> exact hlt0
  · rw [map_key_map _ Ride.id (fun x => by split <;> rfl)]
    exact w.rides_nodup
  · intro c hcm
    rcases List.mem_map.mp hcm with ⟨c0, hc0, rfl⟩
    rw [cancelIfId_id]
    exact w.bookings_id_lt c0 hc0
  · rw [map_key_map _ Booking.id (cancelIfId_id b.id)]
    exact w.bookings_nodup
  · intro c hcm
    rcases List.mem_map.mp hcm with ⟨c0, hc0, rfl⟩
    have : (cancelIfId b.id c0).ride_id = c0.ride_id := by
      unfold cancelIfId
      split <;> rfl
    rw [this]
    exact w.bookings_ride_lt c0 hc0
  · intro c hcm
    rcases List.mem_map.mp hcm with ⟨c0, hc0, rfl⟩
    have : (cancelIfId b.id c0).seats_booked = c0.seats_booked := by
      unfold cancelIfId
      split <;> rfl
    rw [this]
    exact w.seats_pos c0 hc0
  · intro c hcm
    rcases List.mem_map.mp hcm with ⟨c0, hc0, rfl⟩
    unfold cancelIfId
    split
    · exact Or.inr rfl
    · exact w.status_ok c0 hc0
  · intro x hx
    rcases List.mem_map.mp hx with ⟨x0, hx0, rfl⟩
    have h0 := w.avail_nonneg x0 hx0
    have hsp := w.seats_pos b hmem_b
    split <;> [skip; exact h0]
    show 0 ≤ x0.available_seats + b.seats_booked
    omega
  · intro x hx
    rcases List.mem_map.mp hx with ⟨x0, hx0, rfl⟩
    have hbound := w.avail_bound x0 hx0
    have hss := seatSum_map_cancelIfId x0.id w.bookings_nodup hmem_b hconf
    by_cases hcx : x0.id = b.ride_id
    · have hcx1 : (x0.id == b.ride_id) = true := by simpa using hcx
      have hcx2 : (b.ride_id == x0.id) = true := by simpa using hcx.symm
      simp only [hcx1, if_true]
      rw [hss, hcx2]
      simp only [if_true]
      omega
    · have hcx1 : (x0.id == b.ride_id) = false := by simpa using hcx
      have hcx2 : (b.ride_id == x0.id) = false := by
        simpa using fun he => hcx he.symm
      simp only [hcx1, Bool.false_eq_true, if_false]
      rw [hss, hcx2]
      simp only [Bool.false_eq_true, if_false]
      omega

/-- Booking cancellation preserves well-formedness. -/
theorem wf_cancelBooking {db : DB} (w : WF db) (u bid : Nat) :
    WF (cancelBooking db u bid).1 := by
  cases h : findBooking db bid with
  | none => rw [cancelBooking_err_notfound h]; exact w
  | some b =>
    by_cases hp : b.passenger_id = u
    · by_cases hc : b.booking_status = BookingStatus.cancelled
      · rw [cancelBooking_err_already h hp hc]; exact w
      · cases hr : findRide db b.ride_id with
        | none =>
          rw [cancelBooking_ok_noride h hp hc hr]
          exact wf_cancel_effect w db.messages h hc
        | some r =>
          rw [cancelBooking_ok_ride h hp hc hr]
          exact wf_cancel_effect w (db.messages ++ [⟨b.ride_id, u, r.driver_id⟩]) h hc
    · rw [cancelBooking_err_forbidden h hp]; exact w

/-- Ride status update (with or without the cancellation cascade) preserves
well-formedness. -/
theorem wf_updateRideStatus {db : DB} (w : WF db) (u rid : Nat) (st : RideStatus) :
    WF (updateRideStatus db u rid st).1 := by
  cases h : findRide db rid with
  | none => rw [updateRideStatus_err_notfound h]; exact w
  | some r =>
    by_cases hd : r.driver_id = u
    · by_cases hst : st = RideStatus.cancelled
      · subst hst
        rw [updateRideStatus_ok_cancel h hd]
        dsimp only
        have hcascade : ∀ rid2 : Nat,
            seatSum rid2 (db.bookings.map
              (cancelIfMem ((confirmedOn db rid).map Booking.id))) ≤
              seatSum rid2 db.bookings := by
          intro rid2
          by_cases hne : rid2 = rid
          · subst hne
            have hz := seatSum_cascade_self rid2 db.bookings
            unfold confirmedOn
            rw [hz]
            exact seatSum_nonneg rid2 (fun c hcm => by
              have := w.seats_pos c hcm
              omega)
          · unfold confirmedOn
            rw [seatSum_cascade_other w.bookings_nodup rid rid2 hne]
        refine ⟨?_, ?_, ?_, ?_, ?_, ?_, ?_, ?_, ?_⟩
        · intro x hx
          rcases List.mem_map.mp hx with ⟨x0, hx0, rfl⟩
          have hlt0 := w.rides_id_lt x0 hx0
          split <;> exact hlt0
        · rw [map_key_map _ Ride.id (fun x => by split <;> rfl)]
          exact w.rides_nodup
        · intro c hcm
          rcases List.mem_map.mp hcm with ⟨c0, hc0, rfl⟩
          have : (cancelIfMem ((confirmedOn db rid).map Booking.id) c0).id = c0.id := by
            unfold cancelIfMem
            split <;> rfl
          rw [this]
          exact w.bookings_id_lt c0 hc0
        · rw [map_key_map _ Booking.id (fun c => by unfold cancelIfMem; split <;> rfl)]
          exact w.bookings_nodup
        · intro c hcm
          rcases List.mem_map.mp hcm with ⟨c0, hc0, rfl⟩
          have : (cancelIfMem ((confirmedOn db rid).map Booking.id) c0).ride_id = c0.ride_id := by
            unfold cancelIfMem
            split <;> rfl
          rw [this]
          exact w.bookings_ride_lt c0 hc0
        · intro c hcm
          rcases List.mem_map.mp hcm with ⟨c0, hc0, rfl⟩
          have : (cancelIfMem ((confirmedOn db rid).map Booking.id) c0).seats_booked =
              c0.seats_booked := by
            unfold cancelIfMem
            split <;> rfl
          rw [this]
          exact w.seats_pos c0 hc0
        · intro c hcm
          rcases List.mem_map.mp hcm with ⟨c0, hc0, rfl⟩
          unfold cancelIfMem
          split
          · exact Or.inr rfl
          · exact w.status_ok c0 hc0
        · intro x hx
          rcases List.mem_map.mp hx with ⟨x0, hx0, rfl⟩
          have h0 := w.avail_nonneg x0 hx0
          split <;> exact h0
        · intro x hx
          rcases List.mem_map.mp hx with ⟨x0, hx0, rfl⟩
          have hbound := w.avail_bound x0 hx0
          have hcas := hcascade x0.id
          split
          · dsimp only
            omega
          · dsimp only
            omega
      · rw [updateRideStatus_ok_other h hd hst]
        dsimp only
        refine ⟨?_, ?_, w.bookings_id_lt, w.bookings_nodup, w.bookings_ride_lt,
          w.seats_pos, w.status_ok, ?_, ?_⟩
        · intro x hx
          rcases List.mem_map.mp hx with ⟨x0, hx0, rfl⟩
          have hlt0 := w.rides_id_lt x0 hx0
          split <;> exact hlt0
        · rw [map_key_map _ Ride.id (fun x => by split <;> rfl)]
          exact w.rides_nodup
        · intro x hx
          rcases List.mem_map.mp hx with ⟨x0, hx0, rfl⟩
          have h0 := w.avail_nonneg x0 hx0
          split <;> exact h0
        · intro x hx
          rcases List.mem_map.mp hx with ⟨x0, hx0, rfl⟩
          have hbound := w.avail_bound x0 hx0
          split <;> exact hbound
    · rw [updateRideStatus_err_forbidden h hd]; exact w

/-- Every reachable store is well-formed. -/
theorem wf_of_reachable {db : DB} (h : Reachable db) : WF db := by
  induction h with
  | init => exact wf_empty
  | step_create_ride u inp _ ht ha ih => exact wf_createRide ih u inp ht ha
  | step_create_booking u rid seats _ hs ih => exact wf_createBooking ih u rid hs
  | step_cancel_booking u bid _ ih => exact wf_cancelBooking ih u bid
  | step_update_status u rid st _ ih => exact wf_updateRideStatus ih u rid st

/-- C1 counterexample: the create-ride handler trusts the caller-supplied
`available_seats`; asking for total 2 but available 5 succeeds and
immediately violates 0 ≤ available_seats ≤ total_seats. -/
theorem c1_counterexample :
    (createRide ⟨[], [], [], 0⟩ 7 inpOversupply).2 =
      Except.ok ⟨0, 7, 2, 5, 100, RideStatus.available⟩ ∧
    seatBoundsOk (createRide ⟨[], [], [], 0⟩ 7 inpOversupply).1 = false := by
  exact ⟨rfl, rfl⟩

/-- C1 (amended): starting from the empty store, as long as every
create-ride request has a positive seat total with `available_seats` absent
or within [0, total_seats], and every booking request asks for at least one
seat, every ride in every reachable store satisfies
0 ≤ available_seats ≤ total_seats — across any sequence of ride creations,
bookings, booking cancellations, and ride status updates including the
cancellation cascade. -/
theorem rides_seat_invariant (db : DB) (h : Reachable db) :
    ∀ r ∈ db.rides, 0 ≤ r.available_seats ∧ r.available_seats ≤ r.total_seats := by
  intro r hr
  have w := wf_of_reachable h
  have h1 := w.avail_nonneg r hr
  have h2 := w.avail_bound r hr
  have h3 : 0 ≤ seatSum r.id db.bookings :=
    seatSum_nonneg r.id (fun c hcm => by
      have := w.seats_pos c hcm
      omega)
  exact ⟨h1, by omega⟩

/-- Witness for the amended C1 theorem: the store reached by publishing a
four-seat ride and booking two of its seats keeps the ride inside its seat
bounds. -/
theorem rides_seat_invariant_witness :
    0 ≤ (⟨0, 7, 4, 2, 100, RideStatus.available⟩ : Ride).available_seats ∧
    (⟨0, 7, 4, 2, 100, RideStatus.available⟩ : Ride).available_seats ≤
      (⟨0, 7, 4, 2, 100, RideStatus.available⟩ : Ride).total_seats := by
  have hreach : Reachable dbReachedC1 :=
    Reachable.step_create_booking 9 0 2
      (Reachable.step_create_ride 7 inpGood Reachable.init (by decide)
        (by intro a ha; simp [inpGood] at ha))
      (by decide)
  exact rides_seat_invariant dbReachedC1 hreach
    ⟨0, 7, 4, 2, 100, RideStatus.available⟩ (by decide)

end Poolo
